import Mathlib

/-!
Shallow embedding of `gazebo/sensors/ImuSensor.cc` (darksylinc/gazebo).

The sensor's own code (Load, OnResponse, OnLinkData, UpdateImpl, accessors)
is translated from the source file.  The gazebo math library
(`math::Vector3`, `math::Quaternion`, `math::Pose`) and the transport layer
are code of this repository that is not under `src/`; they are modelled from
the spec: quaternions with Hamilton product, inverse as conjugate over the
squared norm, vector rotation by conjugation, pose composition that composes
the local rotation onto the parent rotation.  Scalars are rationals so that
every definition is executable and equality is decidable.
-/

namespace GazeboImu

/-- 3-vector with rational components (models `math::Vector3`). -/
structure Vector3 where
  x : ℚ
  y : ℚ
  z : ℚ
  deriving DecidableEq, Repr

/-- Component-wise vector addition. -/
def vadd (a b : Vector3) : Vector3 :=
  ⟨a.x + b.x, a.y + b.y, a.z + b.z⟩

/-- Component-wise vector subtraction. -/
def vsub (a b : Vector3) : Vector3 :=
  ⟨a.x - b.x, a.y - b.y, a.z - b.z⟩

/-- Divide a vector by a scalar, component-wise. -/
def vdivQ (a : Vector3) (d : ℚ) : Vector3 :=
  ⟨a.x / d, a.y / d, a.z / d⟩

/-- The zero vector. -/
def vzero : Vector3 := ⟨0, 0, 0⟩

/-- Quaternion with rational components (models `math::Quaternion`). -/
structure Quat where
  w : ℚ
  x : ℚ
  y : ℚ
  z : ℚ
  deriving DecidableEq, Repr

/-- Hamilton product of two quaternions (models `Quaternion::operator*`). -/
def qmul (a b : Quat) : Quat :=
  ⟨a.w * b.w - a.x * b.x - a.y * b.y - a.z * b.z,
   a.w * b.x + a.x * b.w + a.y * b.z - a.z * b.y,
   a.w * b.y - a.x * b.z + a.y * b.w + a.z * b.x,
   a.w * b.z + a.x * b.y - a.y * b.x + a.z * b.w⟩

/-- The identity quaternion. -/
def qone : Quat := ⟨1, 0, 0, 0⟩

/-- Squared norm of a quaternion. -/
def normSq (q : Quat) : ℚ :=
  q.w * q.w + q.x * q.x + q.y * q.y + q.z * q.z

/-- Modelled from the spec: quaternion inverse (`Quaternion::GetInverse`,
math library not under `src/`): the conjugate scaled by the reciprocal of
the squared norm, with the degenerate zero quaternion mapped to the
identity. -/
def qinv (q : Quat) : Quat :=
  let s := normSq q
  if s = 0 then qone else ⟨q.w / s, -q.x / s, -q.y / s, -q.z / s⟩

/-- Modelled from the spec: rotation of a vector by a quaternion
(`Quaternion::RotateVector`): conjugation `q · (0, v) · q⁻¹`, keeping the
vector part. -/
def rotateVector (q : Quat) (v : Vector3) : Vector3 :=
  let t := qmul (qmul q ⟨0, v.x, v.y, v.z⟩) (qinv q)
  ⟨t.x, t.y, t.z⟩

/-- Pose: a position and an orientation (models `math::Pose`). -/
structure Pose where
  pos : Vector3
  rot : Quat
  deriving DecidableEq, Repr

/-- Modelled from the spec: pose composition (`Pose::operator+`), composing
the left (local) pose onto the right (parent/world) pose: the position is
the parent position plus the local position rotated by the parent rotation,
and the rotation is the parent rotation composed with the local rotation. -/
def poseAdd (a b : Pose) : Pose :=
  ⟨vadd b.pos (rotateVector b.rot a.pos), qmul b.rot a.rot⟩

/-- One link-data message: a timestamped kinematic snapshot of the parent
body (the `msgs::LinkData` payload pushed by `OnLinkData`). -/
structure LinkData where
  timestamp : ℚ
  worldPose : Pose
  worldLinearVel : Vector3
  worldAngularVel : Vector3
  deriving DecidableEq, Repr

/-- What the member `responseSub` is currently subscribed to: nothing, the
`~/response` channel, or (after a matching discovery response reassigns it)
the parent body's link-data channel. -/
inductive SubKind where
  | idle
  | responseChannel
  | linkChannel (topic : String)
  deriving DecidableEq, Repr

/-- The `msgs::IMU` message assembled by `UpdateImpl`. -/
structure ImuMsg where
  entityName : String
  stamp : ℚ
  orientation : Quat
  angularVelocity : Vector3
  linearAcceleration : Vector3
  deriving DecidableEq, Repr

/-- The mutable state of an `ImuSensor` instance: the fields of the C++
class that the translated member functions read and write. -/
structure ImuState where
  pose : Pose
  name : String
  parentName : String
  scopedParentName : String
  parentEntity : Bool
  referencePose : Pose
  lastLinearVel : Vector3
  lastMeasurementTime : ℚ
  linearAcc : Vector3
  gravity : Vector3
  imuMsg : ImuMsg
  incomingLinkData : List LinkData
  pub : Option String
  requestMsg : Option Nat
  sub : SubKind
  deriving DecidableEq, Repr

/-- The `<imu><topic>` element of the sdf configuration: `some t` when both
elements are present with value `t`, `none` otherwise. -/
structure SdfConfig where
  imuTopic : Option String
  deriving DecidableEq, Repr

/-- Default output topic used by the configuration-stage `Load`:
`"~/" + parentName + "/" + GetName() + "/imu"` with every `::`
replaced by `/`. -/
def defaultTopicName (s : ImuState) : String :=
  String.replace ("~/" ++ s.parentName ++ "/" ++ s.name ++ "/imu") "::" "/"

/-- Configuration-stage `ImuSensor::Load(worldName, sdf)` (lines 54-82):
advertise the output publisher on the custom topic when one is configured
and differs from the `__default_topic__` sentinel, otherwise on the default
topic; subscribe to `~/response` and send a discovery request carrying the
fresh id `reqId`. -/
def loadConfig (sdf : SdfConfig) (reqId : Nat) (s : ImuState) : ImuState :=
  let pubTopic :=
    match sdf.imuTopic with
    | some t => if t ≠ "__default_topic__" then t else defaultTopicName s
    | none => defaultTopicName s
  { s with pub := some pubTopic, sub := SubKind.responseChannel,
           requestMsg := some reqId }

/-- Result of `World::GetEntity(parentName)` followed by the dynamic cast
to `physics::Link`: the entity may be missing, a link, or some other kind
of entity. -/
structure LinkInfo where
  worldPose : Pose
  worldLinearVel : Vector3
  deriving DecidableEq, Repr

/-- What the world resolves the parent name to. -/
inductive WorldEntity where
  | link (info : LinkInfo)
  | nonLink
  deriving DecidableEq, Repr

/-- Environment for the world-stage `Load`. -/
structure LoadEnv where
  entity : Option WorldEntity
  deriving DecidableEq, Repr

/-- `boost::shared_dynamic_cast<physics::Link>(world->GetEntity(...))`:
yields the link when the entity exists and is a link, null otherwise. -/
def resolveLink (env : LoadEnv) : Option LinkInfo :=
  match env.entity with
  | some (WorldEntity.link info) => some info
  | _ => none

/-- World-stage `ImuSensor::Load(worldName)` (lines 85-100): resolve the
parent entity to a link, aborting with `gzthrow` when the cast fails;
otherwise capture the reference pose `pose + parentWorldPose` and set
`lastLinearVel` to the parent's world linear velocity rotated by the
reference orientation. -/
def load (env : LoadEnv) (s : ImuState) : Except String ImuState :=
  match resolveLink env with
  | none =>
      Except.error ("IMU has invalid paret[" ++ s.parentName ++
        "]. Must be a link\n")
  | some info =>
      let refPose := poseAdd s.pose info.worldPose
      Except.ok { s with
        parentEntity := true,
        referencePose := refPose,
        lastLinearVel := rotateVector refPose.rot info.worldLinearVel }

/-- `ImuSensor::OnResponse` (lines 114-129): ignore the response when no
request is outstanding or the id does not match; on a match, subscribe to
the parent body's scoped data channel (reusing the `responseSub` member)
and clear the outstanding request. -/
def onResponse (msgId : Nat) (s : ImuState) : ImuState :=
  match s.requestMsg with
  | none => s
  | some reqId =>
      if msgId ≠ reqId then s
      else { s with
        sub := SubKind.linkChannel ("~/" ++ s.scopedParentName),
        requestMsg := none }

/-- `ImuSensor::OnLinkData` (lines 132-146): when the sensor is active,
append the message to `incomingLinkData` and pop the front element when the
size exceeds 100; when inactive, drop the message. -/
def onLinkData (isActive : Bool) (msg : LinkData) (buf : List LinkData) :
    List LinkData :=
  if isActive then
    let buf2 := buf ++ [msg]
    if 100 < buf2.length then buf2.tail else buf2
  else buf

/-- Fold a sequence of deliveries (each with the activity flag observed at
delivery time) through `onLinkData`. -/
def pushAll (buf : List LinkData) (events : List (Bool × LinkData)) :
    List LinkData :=
  events.foldl (fun b e => onLinkData e.1 e.2 b) buf

/-- The samples delivered while the sensor was active, in delivery order. -/
def activeSamples (events : List (Bool × LinkData)) : List LinkData :=
  (events.filter (fun e => e.1)).map (fun e => e.2)

/-- Environment for one `UpdateImpl` tick: the values returned by the
direct queries of the parent entity and the physics engine.
`velTimestamp` and `worldLinearVelAtPoint` are the timestamp out-parameter
and return value of `GetWorldLinearVel(timestamp, pose.pos)` (the world
linear velocity at the sensor's attachment point). -/
structure LinkEnv where
  velTimestamp : ℚ
  worldLinearVelAtPoint : Vector3
  parentWorldPose : Pose
  worldAngularVel : Vector3
  gravity : Vector3
  deriving DecidableEq, Repr

/-- The IMU's current world pose: `this->pose + parentEntity world pose`
(line 200). -/
def imuPoseOf (env : LinkEnv) (s : ImuState) : Pose :=
  poseAdd s.pose env.parentWorldPose

/-- The value `this->linearAcc` holds after the `dt` branch of `UpdateImpl`
(lines 216-227) and before gravity is subtracted: the freshly
differentiated body-frame acceleration when `dt > 0`, the held-over member
value otherwise. -/
def rawAccel (env : LinkEnv) (s : ImuState) : Vector3 :=
  let dt := env.velTimestamp - s.lastMeasurementTime
  if 0 < dt then
    rotateVector (qinv (imuPoseOf env s).rot)
      (vdivQ (vsub env.worldLinearVelAtPoint s.lastLinearVel) dt)
  else s.linearAcc

/-- The gravity vector rotated into the body frame (line 231). -/
def bodyGravity (env : LinkEnv) (s : ImuState) : Vector3 :=
  rotateVector (qinv (imuPoseOf env s).rot) env.gravity

/-- `ImuSensor::UpdateImpl` (lines 173-237): query the parent's world
linear velocity (with its timestamp) at the attachment point, fill in the
IMU message (entity name, stamp, reference-relative orientation, body-frame
angular velocity), differentiate the velocity when `dt > 0` (updating
`lastLinearVel` and `lastMeasurementTime` only then), subtract the rotated
gravity from `linearAcc`, store the acceleration in the message, and
publish it when an output publisher exists.  Returns the new state and the
message published this tick, if any. -/
def updateImpl (env : LinkEnv) (s : ImuState) : ImuState × Option ImuMsg :=
  let timestamp := env.velTimestamp
  let dt := timestamp - s.lastMeasurementTime
  let imuPose := imuPoseOf env s
  let newLinearAcc := vsub (rawAccel env s) (bodyGravity env s)
  let msg : ImuMsg :=
    { entityName := s.parentName,
      stamp := timestamp,
      orientation := qmul imuPose.rot (qinv s.referencePose.rot),
      angularVelocity := rotateVector (qinv imuPose.rot) env.worldAngularVel,
      linearAcceleration := newLinearAcc }
  let s2 : ImuState :=
    { s with
      imuMsg := msg,
      linearAcc := newLinearAcc,
      gravity := env.gravity,
      lastLinearVel :=
        if 0 < dt then env.worldLinearVelAtPoint else s.lastLinearVel,
      lastMeasurementTime :=
        if 0 < dt then timestamp else s.lastMeasurementTime }
  (s2, if s.pub.isSome then some msg else none)

/-- `ImuSensor::GetAngularVelocity` (lines 149-152): a const accessor
returning the angular-velocity component of the last assembled message. -/
def GetAngularVelocity (s : ImuState) : Vector3 :=
  s.imuMsg.angularVelocity

/-- `ImuSensor::GetLinearAcceleration` (lines 155-158): a const accessor
returning the linear-acceleration component of the last assembled
message. -/
def GetLinearAcceleration (s : ImuState) : Vector3 :=
  s.imuMsg.linearAcceleration

/-- `ImuSensor::GetOrientation` (lines 161-164): a const accessor returning
the orientation component of the last assembled message. -/
def GetOrientation (s : ImuState) : Quat :=
  s.imuMsg.orientation

/-- Written from the spec's words, for comparison with `updateImpl`: the
reading the spec says an update tick computes from the most recently pushed
`KinematicSample` (orientation relative to the reference, body-frame
angular velocity, differentiated and gravity-compensated acceleration, all
taken from the sample's fields). -/
def specReadingFromSample (gravity : Vector3) (sample : LinkData)
    (s : ImuState) : ImuMsg :=
  let imuPose := poseAdd s.pose sample.worldPose
  let dt := sample.timestamp - s.lastMeasurementTime
  let raw :=
    if 0 < dt then
      rotateVector (qinv imuPose.rot)
        (vdivQ (vsub sample.worldLinearVel s.lastLinearVel) dt)
    else s.linearAcc
  { entityName := s.parentName,
    stamp := sample.timestamp,
    orientation := qmul imuPose.rot (qinv s.referencePose.rot),
    angularVelocity := rotateVector (qinv imuPose.rot) sample.worldAngularVel,
    linearAcceleration := vsub raw (rotateVector (qinv imuPose.rot) gravity) }

/-- A neutral sensor state used to build concrete test states. -/
def baseState : ImuState :=
  { pose := ⟨vzero, qone⟩,
    name := "imu0",
    parentName := "model::link",
    scopedParentName := "model::link",
    parentEntity := true,
    referencePose := ⟨vzero, qone⟩,
    lastLinearVel := vzero,
    lastMeasurementTime := 0,
    linearAcc := vzero,
    gravity := vzero,
    imuMsg :=
      { entityName := "model::link", stamp := 0, orientation := qone,
        angularVelocity := vzero, linearAcceleration := vzero },
    incomingLinkData := [],
    pub := some "~/model/link/imu0/imu",
    requestMsg := none,
    sub := SubKind.idle }

/-! ### Helper lemmas -/

theorem qinv_qone : qinv qone = qone := by
  simp [qinv, qone, normSq]

theorem qmul_qone_left (q : Quat) : qmul qone q = q := by
  cases q
  simp [qmul, qone]

theorem qmul_qone_right (q : Quat) : qmul q qone = q := by
  cases q
  simp [qmul, qone]

theorem rotateVector_qone (v : Vector3) : rotateVector qone v = v := by
  cases v
  simp [rotateVector, qinv, qone, normSq, qmul]

theorem qmul_qinv_self (q : Quat) (h : normSq q ≠ 0) :
    qmul q (qinv q) = qone := by
  obtain ⟨w, x, y, z⟩ := q
  simp only [normSq] at h
  simp only [qinv, normSq, if_neg h, qmul, qone, Quat.mk.injEq]
  refine ⟨?_, by ring, by ring, by ring⟩
  field_simp

/-- A tick environment with identity parent orientation, zero velocities
and zero gravity, used to instantiate universally quantified theorems. -/
def envW : LinkEnv :=
  { velTimestamp := 1, worldLinearVelAtPoint := vzero,
    parentWorldPose := ⟨vzero, qone⟩, worldAngularVel := vzero,
    gravity := vzero }

/-! ### Claim theorems -/

/-- C6: the reported orientation always equals the IMU's current world
orientation composed with the inverse of the captured reference
orientation, and whenever the current world orientation equals the
reference orientation (with a non-degenerate reference quaternion) the
reported orientation is the identity quaternion. -/
theorem imu_C6_orientation (env : LinkEnv) (s : ImuState)
    (h : normSq s.referencePose.rot ≠ 0) :
    (updateImpl env s).1.imuMsg.orientation
      = qmul (imuPoseOf env s).rot (qinv s.referencePose.rot) ∧
    ((imuPoseOf env s).rot = s.referencePose.rot →
      (updateImpl env s).1.imuMsg.orientation = qone) := by
  constructor
  · rfl
  · intro he
    show qmul (imuPoseOf env s).rot (qinv s.referencePose.rot) = qone
    rw [he]
    exact qmul_qinv_self _ h

theorem imu_C6_witness :
    normSq baseState.referencePose.rot ≠ 0 ∧
    ((updateImpl envW baseState).1.imuMsg.orientation
        = qmul (imuPoseOf envW baseState).rot
            (qinv baseState.referencePose.rot) ∧
      ((imuPoseOf envW baseState).rot = baseState.referencePose.rot →
        (updateImpl envW baseState).1.imuMsg.orientation = qone)) :=
  ⟨by norm_num [normSq, baseState, qone],
   imu_C6_orientation envW baseState (by norm_num [normSq, baseState, qone])⟩

/-- C7: a discovery response is ignored (no state change) when no request
is outstanding or its id does not match; on a match the handler subscribes
to the parent body's scoped data channel and clears the outstanding
request, and processing the same response twice equals processing it
once. -/
theorem imu_C7_onResponse (msgId : Nat) (s : ImuState) :
    (s.requestMsg = none → onResponse msgId s = s) ∧
    (∀ r, s.requestMsg = some r → msgId ≠ r → onResponse msgId s = s) ∧
    (∀ r, s.requestMsg = some r → msgId = r →
      (onResponse msgId s).sub
          = SubKind.linkChannel ("~/" ++ s.scopedParentName) ∧
      (onResponse msgId s).requestMsg = none) ∧
    onResponse msgId (onResponse msgId s) = onResponse msgId s := by
  refine ⟨fun h => by simp [onResponse, h],
    fun r hr hne => by simp [onResponse, hr, hne],
    fun r hr heq => by subst heq; simp [onResponse, hr], ?_⟩
  cases hreq : s.requestMsg with
  | none => simp [onResponse, hreq]
  | some r =>
      by_cases hid : msgId = r
      · subst hid
        simp [onResponse, hreq]
      · simp [onResponse, hreq, hid]

/-- Sensor state with an outstanding discovery request of id 5. -/
def reqState : ImuState :=
  { baseState with requestMsg := some 5, sub := SubKind.responseChannel }

theorem imu_C7_witness :
    (onResponse 5 reqState).sub
        = SubKind.linkChannel ("~/" ++ reqState.scopedParentName) ∧
    (onResponse 5 reqState).requestMsg = none :=
  (imu_C7_onResponse 5 reqState).2.2.1 5 rfl rfl

/-- C10: the const accessors return exactly the corresponding components
(body-frame angular velocity, gravity-compensated linear acceleration,
reference-relative orientation) of the message assembled by the most
recent update, without touching any other state. -/
theorem imu_C10_accessors (env : LinkEnv) (s : ImuState) :
    GetAngularVelocity (updateImpl env s).1
      = rotateVector (qinv (imuPoseOf env s).rot) env.worldAngularVel ∧
    GetLinearAcceleration (updateImpl env s).1
      = vsub (rawAccel env s) (bodyGravity env s) ∧
    GetOrientation (updateImpl env s).1
      = qmul (imuPoseOf env s).rot (qinv s.referencePose.rot) ∧
    GetAngularVelocity (updateImpl env s).1
      = (updateImpl env s).1.imuMsg.angularVelocity ∧
    GetLinearAcceleration (updateImpl env s).1
      = (updateImpl env s).1.imuMsg.linearAcceleration ∧
    GetOrientation (updateImpl env s).1
      = (updateImpl env s).1.imuMsg.orientation :=
  ⟨rfl, rfl, rfl, rfl, rfl, rfl⟩

/-- C8: the world-stage `Load` fails (returns the `gzthrow` error) exactly
when the parent name does not resolve to a valid link, and on success the
parent entity reference is set and the reference pose is captured as the
composition of the sensor pose onto the parent's world pose. -/
theorem imu_C8_load (env : LoadEnv) (s : ImuState) :
    ((∃ msg, load env s = Except.error msg) ↔ resolveLink env = none) ∧
    (∀ s2, load env s = Except.ok s2 →
      s2.parentEntity = true ∧
      ∃ info, resolveLink env = some info ∧
        s2.referencePose = poseAdd s.pose info.worldPose) := by
  cases hres : resolveLink env with
  | none =>
      refine ⟨⟨fun _ => rfl, fun _ =>
        ⟨"IMU has invalid paret[" ++ s.parentName ++ "]. Must be a link\n",
          by simp [load, hres]⟩⟩, ?_⟩
      intro s2 h2
      simp [load, hres] at h2
  | some info =>
      refine ⟨⟨?_, ?_⟩, ?_⟩
      · rintro ⟨msg, hmsg⟩
        simp [load, hres] at hmsg
      · intro hnone
        exact Option.noConfusion hnone
      · intro s2 h2
        simp [load, hres] at h2
        subst h2
        exact ⟨rfl, info, rfl, rfl⟩

/-- A load environment whose parent entity resolves to a link at rest with
identity orientation. -/
def linkEnvOk : LoadEnv :=
  { entity := some (WorldEntity.link
      { worldPose := ⟨vzero, qone⟩, worldLinearVel := vzero }) }

/-- The state produced by a successful world-stage `Load` from
`baseState` in `linkEnvOk`. -/
def loadedState : ImuState :=
  match load linkEnvOk baseState with
  | Except.ok s2 => s2
  | Except.error _ => baseState

theorem imu_C8_witness :
    loadedState.parentEntity = true ∧
    ∃ info, resolveLink linkEnvOk = some info ∧
      loadedState.referencePose = poseAdd baseState.pose info.worldPose :=
  (imu_C8_load linkEnvOk baseState).2 loadedState rfl

/-- C9: the configuration-stage `Load` always establishes the output
publisher (on the custom topic or the default one), the world-stage `Load`
and the update never clear it, and whenever the publisher exists the update
publishes exactly one message: the assembled IMU message. -/
theorem imu_C9_publisher (sdf : SdfConfig) (reqId : Nat) (s s1 : ImuState)
    (env : LinkEnv) (lenv : LoadEnv) :
    (loadConfig sdf reqId s).pub.isSome = true ∧
    (∀ s2, load lenv s1 = Except.ok s2 → s2.pub = s1.pub) ∧
    (updateImpl env s1).1.pub = s1.pub ∧
    (s1.pub.isSome = true →
      (updateImpl env s1).2 = some (updateImpl env s1).1.imuMsg) := by
  refine ⟨?_, ?_, rfl, ?_⟩
  · cases h : sdf.imuTopic with
    | none => simp [loadConfig, h]
    | some t =>
        by_cases ht : t = "__default_topic__" <;> simp [loadConfig, h, ht]
  · intro s2 h2
    cases hres : resolveLink lenv with
    | none => simp [load, hres] at h2
    | some info =>
        simp [load, hres] at h2
        subst h2
        rfl
  · intro hpub
    show (if s1.pub.isSome then _ else none) = _
    rw [hpub]
    rfl

theorem imu_C9_witness :
    (updateImpl envW baseState).2 = some (updateImpl envW baseState).1.imuMsg :=
  (imu_C9_publisher ⟨none⟩ 1 baseState baseState envW ⟨none⟩).2.2.2 rfl

/-- State after a prior tick at rest with identity orientation that
reported the gravity-compensated acceleration `(0, 0, 9.8)`, with the last
measurement taken at time 5. -/
def idleState : ImuState :=
  { baseState with
    lastMeasurementTime := 5,
    linearAcc := ⟨0, 0, 98/10⟩,
    imuMsg := { baseState.imuMsg with
      stamp := 5, linearAcceleration := ⟨0, 0, 98/10⟩ } }

/-- A tick environment whose velocity timestamp has not advanced past the
last measurement (so `dt = 0`) and whose gravity is `(0, 0, -9.8)`. -/
def idleEnv : LinkEnv :=
  { velTimestamp := 5, worldLinearVelAtPoint := vzero,
    parentWorldPose := ⟨vzero, qone⟩, worldAngularVel := vzero,
    gravity := ⟨0, 0, -(98/10)⟩ }

/-- C1 counterexample: at a tick with `dt = 0` the velocity/time state is
indeed left alone, but the reported linear acceleration is NOT unchanged:
gravity is subtracted again from the held-over member value, so the prior
reading `(0, 0, 9.8)` becomes `(0, 0, 19.6)`. -/
theorem imu_C1_counterexample :
    idleEnv.velTimestamp - idleState.lastMeasurementTime ≤ 0 ∧
    (updateImpl idleEnv idleState).1.lastLinearVel = idleState.lastLinearVel ∧
    (updateImpl idleEnv idleState).1.lastMeasurementTime
      = idleState.lastMeasurementTime ∧
    (updateImpl idleEnv idleState).1.imuMsg.linearAcceleration
      ≠ idleState.imuMsg.linearAcceleration ∧
    (updateImpl idleEnv idleState).1.imuMsg.linearAcceleration
      = ⟨0, 0, 196/10⟩ := by
  norm_num [updateImpl, rawAccel, bodyGravity, imuPoseOf, poseAdd, qmul,
    qinv, normSq, rotateVector, vsub, vadd, vdivQ, vzero, qone, baseState,
    idleState, idleEnv]

/-- C1 amended: at a tick with `dt ≤ 0`, `lastLinearVel` and
`lastMeasurementTime` are unchanged and no differentiation occurs, but the
reported linear acceleration equals the prior tick's held-over value minus
the current body-frame gravity (gravity is subtracted anew on every tick,
including idle ones). -/
theorem imu_C1_amended (env : LinkEnv) (s : ImuState)
    (h : env.velTimestamp - s.lastMeasurementTime ≤ 0) :
    (updateImpl env s).1.lastLinearVel = s.lastLinearVel ∧
    (updateImpl env s).1.lastMeasurementTime = s.lastMeasurementTime ∧
    (updateImpl env s).1.imuMsg.linearAcceleration
      = vsub s.linearAcc (bodyGravity env s) := by
  have hdt : ¬ (0 < env.velTimestamp - s.lastMeasurementTime) := not_lt.mpr h
  refine ⟨?_, ?_, ?_⟩ <;> simp [updateImpl, rawAccel, hdt]

theorem imu_C1_witness :
    idleEnv.velTimestamp - idleState.lastMeasurementTime ≤ 0 ∧
    ((updateImpl idleEnv idleState).1.lastLinearVel
        = idleState.lastLinearVel ∧
      (updateImpl idleEnv idleState).1.lastMeasurementTime
        = idleState.lastMeasurementTime ∧
      (updateImpl idleEnv idleState).1.imuMsg.linearAcceleration
        = vsub idleState.linearAcc (bodyGravity idleEnv idleState)) :=
  ⟨by norm_num [idleEnv, idleState, baseState],
   imu_C1_amended idleEnv idleState
     (by norm_num [idleEnv, idleState, baseState])⟩

/-- The quaternion for a 180-degree rotation about the z axis. -/
def rotZ180 : Quat := ⟨0, 0, 0, 1⟩

/-- A load environment whose parent link is rotated 180 degrees about z
and moves with world linear velocity `(1, 0, 0)`. -/
def loadEnvRot : LoadEnv :=
  { entity := some (WorldEntity.link
      { worldPose := ⟨vzero, rotZ180⟩, worldLinearVel := ⟨1, 0, 0⟩ }) }

/-- C2 counterexample: after the world-stage `Load` in `loadEnvRot`, the
stored `lastLinearVel` is the parent's world linear velocity `(1, 0, 0)`
rotated by the reference orientation, i.e. `(-1, 0, 0)` — not the
world-frame velocity itself — so `lastLinearVel` is not always held in the
world frame. -/
theorem imu_C2_counterexample :
    (load loadEnvRot baseState).toOption.map ImuState.lastLinearVel
      = some ⟨-1, 0, 0⟩ ∧
    (⟨-1, 0, 0⟩ : Vector3) ≠ ⟨1, 0, 0⟩ := by
  constructor
  · norm_num [load, resolveLink, loadEnvRot, baseState, poseAdd,
      rotateVector, qmul, qinv, normSq, rotZ180, qone, vzero, vadd,
      Except.toOption]
  · intro h
    cases h

/-- C2 amended: at a tick with `dt > 0` the reported acceleration is the
body-frame (inverse current orientation) rotation of
`(currentWorldLinearVelocity - lastLinearVel) / dt` minus body-frame
gravity, and `lastLinearVel`/`lastMeasurementTime` are set to the current
velocity and timestamp; at a tick with `dt ≤ 0` both are unchanged; the
world-stage `Load`, however, seeds `lastLinearVel` with the parent's world
linear velocity rotated by the reference orientation (not a world-frame
value). -/
theorem imu_C2_differentiation (env : LinkEnv) (s : ImuState) :
    (0 < env.velTimestamp - s.lastMeasurementTime →
      (updateImpl env s).1.imuMsg.linearAcceleration
        = vsub
            (rotateVector (qinv (imuPoseOf env s).rot)
              (vdivQ (vsub env.worldLinearVelAtPoint s.lastLinearVel)
                (env.velTimestamp - s.lastMeasurementTime)))
            (bodyGravity env s) ∧
      (updateImpl env s).1.lastLinearVel = env.worldLinearVelAtPoint ∧
      (updateImpl env s).1.lastMeasurementTime = env.velTimestamp) ∧
    (¬ 0 < env.velTimestamp - s.lastMeasurementTime →
      (updateImpl env s).1.lastLinearVel = s.lastLinearVel ∧
      (updateImpl env s).1.lastMeasurementTime = s.lastMeasurementTime) ∧
    (∀ lenv info s2, resolveLink lenv = some info →
      load lenv s = Except.ok s2 →
      s2.lastLinearVel
        = rotateVector (poseAdd s.pose info.worldPose).rot
            info.worldLinearVel) := by
  refine ⟨?_, ?_, ?_⟩
  · intro hdt
    refine ⟨?_, ?_, ?_⟩ <;> simp [updateImpl, rawAccel, hdt]
  · intro hdt
    constructor <;> simp [updateImpl, hdt]
  · intro lenv info s2 hres hload
    simp [load, hres] at hload
    subst hload
    rfl

/-- A tick environment with an advanced timestamp (`dt = 1`), identity
orientation and velocity `(2, 0, 0)` at the attachment point. -/
def queryEnvDt : LinkEnv :=
  { velTimestamp := 1, worldLinearVelAtPoint := ⟨2, 0, 0⟩,
    parentWorldPose := ⟨vzero, qone⟩, worldAngularVel := vzero,
    gravity := vzero }

theorem imu_C2_witness :
    0 < queryEnvDt.velTimestamp - baseState.lastMeasurementTime ∧
    ((updateImpl queryEnvDt baseState).1.imuMsg.linearAcceleration
        = vsub
            (rotateVector (qinv (imuPoseOf queryEnvDt baseState).rot)
              (vdivQ
                (vsub queryEnvDt.worldLinearVelAtPoint
                  baseState.lastLinearVel)
                (queryEnvDt.velTimestamp
                  - baseState.lastMeasurementTime)))
            (bodyGravity queryEnvDt baseState) ∧
      (updateImpl queryEnvDt baseState).1.lastLinearVel
        = queryEnvDt.worldLinearVelAtPoint ∧
      (updateImpl queryEnvDt baseState).1.lastMeasurementTime
        = queryEnvDt.velTimestamp) :=
  ⟨by norm_num [queryEnvDt, baseState],
   ((imu_C2_differentiation queryEnvDt baseState).1
     (by norm_num [queryEnvDt, baseState]))⟩

/-- A sample sitting in the buffer whose velocity differs from the value
the update queries directly. -/
def sampleBuffered : LinkData :=
  { timestamp := 1, worldPose := ⟨vzero, qone⟩,
    worldLinearVel := ⟨100, 0, 0⟩, worldAngularVel := vzero }

/-- A sensor state whose buffer holds `sampleBuffered`. -/
def bufState : ImuState :=
  { baseState with incomingLinkData := [sampleBuffered] }

/-- A tick environment whose direct query returns velocity `(1, 0, 0)`
(different from the buffered sample's `(100, 0, 0)`). -/
def queryEnv : LinkEnv :=
  { velTimestamp := 1, worldLinearVelAtPoint := ⟨1, 0, 0⟩,
    parentWorldPose := ⟨vzero, qone⟩, worldAngularVel := vzero,
    gravity := vzero }

/-- C3 counterexample: with a sample in the buffer, the update does not
compute the reading from that most recently pushed sample: the reported
acceleration is `(1, 0, 0)` (from the direct query of the parent entity),
not the `(100, 0, 0)` the buffered sample would give. -/
theorem imu_C3_counterexample :
    bufState.incomingLinkData.getLast? = some sampleBuffered ∧
    (updateImpl queryEnv bufState).1.imuMsg.linearAcceleration
      = ⟨1, 0, 0⟩ ∧
    (specReadingFromSample queryEnv.gravity sampleBuffered
        bufState).linearAcceleration = ⟨100, 0, 0⟩ ∧
    (updateImpl queryEnv bufState).1.imuMsg
      ≠ specReadingFromSample queryEnv.gravity sampleBuffered bufState := by
  refine ⟨rfl, ?_, ?_, ?_⟩
  · norm_num [updateImpl, rawAccel, bodyGravity, imuPoseOf, poseAdd, qmul,
      qinv, normSq, rotateVector, vsub, vadd, vdivQ, vzero, qone, baseState,
      bufState, queryEnv]
  · norm_num [specReadingFromSample, poseAdd, qmul, qinv, normSq,
      rotateVector, vsub, vadd, vdivQ, vzero, qone, baseState, bufState,
      queryEnv, sampleBuffered]
  · intro h
    have hx := congrArg (fun m => m.linearAcceleration.x) h
    norm_num [updateImpl, rawAccel, bodyGravity, imuPoseOf,
      specReadingFromSample, poseAdd, qmul, qinv, normSq, rotateVector,
      vsub, vadd, vdivQ, vzero, qone, baseState, bufState, queryEnv,
      sampleBuffered] at hx

/-- C3 amended: the update never consumes the sample buffer (it is left
exactly as it was); the reading is computed from the directly queried
parent state, independent of what the buffer holds, with the
reference-relative orientation, the differentiated-then-gravity-compensated
acceleration, and exactly one publish when a publisher exists. -/
theorem imu_C3_noBufferRead (env : LinkEnv) (s : ImuState)
    (buf : List LinkData) :
    (updateImpl env s).1.incomingLinkData = s.incomingLinkData ∧
    (updateImpl env { s with incomingLinkData := buf }).1.imuMsg
      = (updateImpl env s).1.imuMsg ∧
    (updateImpl env s).1.imuMsg.orientation
      = qmul (imuPoseOf env s).rot (qinv s.referencePose.rot) ∧
    (updateImpl env s).1.imuMsg.linearAcceleration
      = vsub (rawAccel env s) (bodyGravity env s) ∧
    (updateImpl env s).2
      = if s.pub.isSome then some (updateImpl env s).1.imuMsg else none :=
  ⟨rfl, rfl, rfl, rfl, rfl⟩

/-- C5: at a tick with a positive time delta, zero current and previous
linear velocity, identity sensor and parent orientation (so the sensor
orientation equals the world frame and the reference orientation), and
gravity `(0, 0, -9.8)`, the reported linear acceleration is `(0, 0, 9.8)`;
and in general the reported acceleration is the raw differentiated (or
held-over) value minus gravity rotated into the body frame by the inverse
of the current orientation. -/
theorem imu_C5_gravityCompensation (env : LinkEnv) (s : ImuState)
    (hpose : s.pose.rot = qone)
    (hparent : env.parentWorldPose.rot = qone)
    (href : s.referencePose.rot = qone)
    (hvel : env.worldLinearVelAtPoint = vzero)
    (hlast : s.lastLinearVel = vzero)
    (hdt : s.lastMeasurementTime < env.velTimestamp)
    (hgrav : env.gravity = ⟨0, 0, -(98/10)⟩) :
    (updateImpl env s).1.imuMsg.linearAcceleration = ⟨0, 0, 98/10⟩ ∧
    (∀ env2 s2, (updateImpl env2 s2).1.imuMsg.linearAcceleration
      = vsub (rawAccel env2 s2) (bodyGravity env2 s2)) := by
  refine ⟨?_, fun env2 s2 => rfl⟩
  have hdt2 : 0 < env.velTimestamp - s.lastMeasurementTime := by linarith
  have hrot : (imuPoseOf env s).rot = qone := by
    simp [imuPoseOf, poseAdd, hpose, hparent, qmul_qone_left]
  show vsub (rawAccel env s) (bodyGravity env s) = _
  rw [rawAccel]
  simp only [hrot, hvel, hlast, if_pos hdt2]
  rw [bodyGravity, hrot, hgrav, qinv_qone, rotateVector_qone,
    rotateVector_qone]
  norm_num [vsub, vdivQ, vzero]

/-- A tick environment at rest with identity orientation, advanced
timestamp and gravity `(0, 0, -9.8)`. -/
def gravEnv : LinkEnv :=
  { velTimestamp := 1, worldLinearVelAtPoint := vzero,
    parentWorldPose := ⟨vzero, qone⟩, worldAngularVel := vzero,
    gravity := ⟨0, 0, -(98/10)⟩ }

theorem imu_C5_witness :
    (baseState.pose.rot = qone ∧ gravEnv.parentWorldPose.rot = qone ∧
      baseState.referencePose.rot = qone ∧
      gravEnv.worldLinearVelAtPoint = vzero ∧
      baseState.lastLinearVel = vzero ∧
      baseState.lastMeasurementTime < gravEnv.velTimestamp ∧
      gravEnv.gravity = ⟨0, 0, -(98/10)⟩) ∧
    ((updateImpl gravEnv baseState).1.imuMsg.linearAcceleration
        = ⟨0, 0, 98/10⟩ ∧
      (∀ env2 s2, (updateImpl env2 s2).1.imuMsg.linearAcceleration
        = vsub (rawAccel env2 s2) (bodyGravity env2 s2))) :=
  ⟨⟨rfl, rfl, rfl, rfl, rfl, by norm_num [baseState, gravEnv], rfl⟩,
   imu_C5_gravityCompensation gravEnv baseState rfl rfl rfl rfl rfl
     (by norm_num [baseState, gravEnv]) rfl⟩

/-- Folding one more delivery through the buffer. -/
theorem pushAll_snoc (buf : List LinkData) (events : List (Bool × LinkData))
    (e : Bool × LinkData) :
    pushAll buf (events ++ [e]) = onLinkData e.1 e.2 (pushAll buf events) := by
  simp [pushAll, List.foldl_append]

/-- A delivery while active appends its sample to the active trace. -/
theorem activeSamples_snoc_true (events : List (Bool × LinkData))
    (m : LinkData) :
    activeSamples (events ++ [(true, m)]) = activeSamples events ++ [m] := by
  simp [activeSamples]

/-- A delivery while inactive leaves the active trace unchanged. -/
theorem activeSamples_snoc_false (events : List (Bool × LinkData))
    (m : LinkData) :
    activeSamples (events ++ [(false, m)]) = activeSamples events := by
  simp [activeSamples]

/-- One active push takes the last-100 suffix of `l` to the last-100
suffix of `l ++ [m]`. -/
theorem onLinkData_true_suffix (m : LinkData) (l : List LinkData) :
    onLinkData true m (l.drop (l.length - 100))
      = (l ++ [m]).drop ((l ++ [m]).length - 100) := by
  have hlen : (l.drop (l.length - 100)).length
      = l.length - (l.length - 100) := List.length_drop _ _
  by_cases hle : l.length < 100
  · have h0 : l.length - 100 = 0 := by omega
    have h1 : (l ++ [m]).length - 100 = 0 := by
      simp only [List.length_append, List.length_cons, List.length_nil]
      omega
    have hcond : ¬ 100 < (l ++ [m]).length := by
      simp only [List.length_append, List.length_cons, List.length_nil]
      omega
    rw [h0, List.drop_zero, h1, List.drop_zero]
    simp only [onLinkData, if_true]
    rw [if_neg hcond]
  · have hk : l.length - (l.length - 100) = 100 := by omega
    have hlen2 : (l.drop (l.length - 100)).length = 100 := by rw [hlen, hk]
    have hcond : 100 < (l.drop (l.length - 100) ++ [m]).length := by
      simp only [List.length_append, List.length_cons, List.length_nil,
        hlen2]
      omega
    have harith : (l ++ [m]).length - 100 = (l.length - 100) + 1 := by
      simp only [List.length_append, List.length_cons, List.length_nil]
      omega
    simp only [onLinkData, if_true]
    rw [if_pos hcond, ← List.drop_one,
      List.drop_append_of_le_length (by rw [hlen2]; omega),
      List.drop_drop, harith,
      List.drop_append_of_le_length (by omega)]

/-- Closed form of the buffer contents: after any delivery sequence the
buffer holds exactly the while-active samples with all but the last 100
dropped. -/
theorem pushAll_closedForm (events : List (Bool × LinkData)) :
    pushAll [] events
      = (activeSamples events).drop ((activeSamples events).length - 100) := by
  induction events using List.reverseRecOn with
  | nil => rfl
  | append_singleton es e ih =>
      obtain ⟨b, m⟩ := e
      cases b
      · rw [pushAll_snoc, activeSamples_snoc_false, ih]
        rfl
      · rw [pushAll_snoc, activeSamples_snoc_true, ih]
        exact onLinkData_true_suffix m (activeSamples es)

/-- C4: pushing while inactive leaves the buffer unchanged; pushing while
active appends and, when the 100-sample capacity would be exceeded, evicts
the oldest; consequently after any delivery sequence the buffer holds at
most 100 samples, and they are exactly the most recently pushed
while-active samples in insertion order. -/
theorem imu_C4_sampleBuffer (events : List (Bool × LinkData)) (m : LinkData)
    (b : List LinkData) :
    onLinkData false m b = b ∧
    onLinkData true m b
      = (if 100 < (b ++ [m]).length then (b ++ [m]).tail else b ++ [m]) ∧
    (pushAll [] events).length ≤ 100 ∧
    pushAll [] events
      = (activeSamples events).drop
          ((activeSamples events).length - 100) := by
  refine ⟨rfl, by simp [onLinkData], ?_, pushAll_closedForm events⟩
  rw [pushAll_closedForm events, List.length_drop]
  omega

end GazeboImu
